import Mathlib

/-
Verification of the MS365-Calendar synchronization/caching core.

Shallow embedding of `custom_components/ms365_calendar/integration/
coordinator_integration.py` and `calendar_integration.py`.  Instants are
modelled as `Int` (UTC epoch seconds); calendar events carry start/end
instants, an all-day flag, a subject and an opaque identifier.  For an
all-day event the stored `start`/`end` instants are the local-midnight
boundaries in UTC produced by the repository's date-normalization helpers
(`get_start_date`/`get_end_date`/`to_datetime`).
-/

namespace MS365

/-- One calendar occurrence, as held by the store / timeline
(`O365.calendar.Event` attributes used by the integration). -/
structure CalEvent where
  object_id : String
  subject : String
  start : Int
  «end» : Int
  is_all_day : Bool
  deriving DecidableEq, Repr

/-- The external-facing representation produced by
`_create_calendar_event_entity` (homeassistant `CalendarEvent`): the fields
the integration reads back. -/
structure HAEvent where
  summary : String
  start : Int
  «end» : Int
  uid : String
  deriving DecidableEq, Repr

/-- Seconds in the 24-hour window `timedelta(days=1)`. -/
def day_seconds : Int := 86400

/-- Modelled from the spec: `MS365Timeline.overlapping` (`sync/timeline.py`
is not in src).  Spec section 4.1: returns every event whose half-open
interval [start, end) intersects [rangeStart, rangeEnd); all-day events are
compared through their normalized local-day boundary instants, which is how
`CalEvent` already stores them. -/
def overlapping (tl : List CalEvent) (range_start range_end : Int) :
    List CalEvent :=
  tl.filter (fun e => decide (e.start < range_end) && decide (range_start < e.«end»))

/-- `MS365CalendarSyncCoordinator.is_started`: `utcnow() >= start`. -/
def is_started (now : Int) (e : CalEvent) : Bool :=
  decide (e.start ≤ now)

/-- `MS365CalendarSyncCoordinator.is_finished`: `utcnow() >= end`. -/
def is_finished (now : Int) (e : CalEvent) : Bool :=
  decide (e.«end» ≤ now)

/-- The bucket loop of `get_current_event` (coordinator_integration.py
lines 113-131): one pass over the candidate events, filling the
`started_event` / `all_day_event` / `not_started_event` slots exactly as the
chained `if` statements do. -/
def current_event_scan (now : Int) :
    List CalEvent → Option CalEvent → Option CalEvent → Option CalEvent →
    Option CalEvent × Option CalEvent × Option CalEvent
  | [], started_event, all_day_event, not_started_event =>
    (started_event, all_day_event, not_started_event)
  | event :: rest, started_event, all_day_event, not_started_event =>
    if event.is_all_day then
      if all_day_event.isNone && !is_finished now event then
        current_event_scan now rest started_event (some event) not_started_event
      else
        current_event_scan now rest started_event all_day_event not_started_event
    else if is_started now event && !is_finished now event then
      if started_event.isNone then
        current_event_scan now rest (some event) all_day_event not_started_event
      else
        current_event_scan now rest started_event all_day_event not_started_event
    else if !is_finished now event && !event.is_all_day
        && not_started_event.isNone then
      current_event_scan now rest started_event all_day_event (some event)
    else
      current_event_scan now rest started_event all_day_event not_started_event

/-- The final `vevent` selection of `get_current_event` (lines 132-140):
started wins, then all-day, then not-started. -/
def pick_current (s a n : Option CalEvent) : Option CalEvent :=
  match s with
  | some e => some e
  | none =>
    match a with
    | some e => some e
    | none => n

/-- `get_current_event` restricted to an explicit candidate list: the scan
plus the priority pick. -/
def get_current_event_from (now : Int) (events : List CalEvent) :
    Option CalEvent :=
  let (s, a, n) := current_event_scan now events none none none
  pick_current s a n

/-- `MS365CalendarSyncCoordinator.get_current_event`: with no synced data
the result is `None`; otherwise the candidates are
`self.data.overlapping(today, today + timedelta(days=1))` where
`today = datetime.now(timezone.utc)` is the current instant. -/
def get_current_event (data : Option (List CalEvent)) (now : Int) :
    Option CalEvent :=
  match data with
  | none => none
  | some tl => get_current_event_from now (overlapping tl now (now + day_seconds))

/-- First-of-two options: Python's `if x: v = x elif ...` chaining. -/
def firstSome : Option CalEvent → Option CalEvent → Option CalEvent
  | some e, _ => some e
  | none, o => o

/-- Spec bucket predicate started: start ≤ now < end, not all-day. -/
def started_bucket (now : Int) (e : CalEvent) : Bool :=
  !e.is_all_day && decide (e.start ≤ now) && decide (now < e.«end»)

/-- Spec bucket predicate all-day-unfinished: all-day, now < end. -/
def all_day_bucket (now : Int) (e : CalEvent) : Bool :=
  e.is_all_day && decide (now < e.«end»)

/-- Spec bucket predicate not-started: now < start, not all-day. -/
def not_started_bucket (now : Int) (e : CalEvent) : Bool :=
  !e.is_all_day && decide (now < e.start)

/-- The code's effective not-started condition: the third branch of the loop
is reached only for non-all-day events that are not (started and
unfinished), and it additionally requires the event not to be finished. -/
def code_not_started (now : Int) (e : CalEvent) : Bool :=
  !e.is_all_day && decide (now < e.start) && decide (now < e.«end»)

/-- Start of the day containing instant `t` in the UTC reference timezone:
the claim's `today_start_instant`, written from the spec's words for
comparison with the code's query window. -/
def today_start_instant (t : Int) : Int := t - t % day_seconds

/-- Which branch of `async_get_events` produced the answer: the uncached
remote fetch (`sync.async_list_events`) or the cached timeline
(`self.data.overlapping`). -/
inductive FetchSource where
  | remote
  | cache
  deriving DecidableEq, Repr

/-- Coordinator state relevant to range queries and refresh: `self.data`
(the framework-held timeline snapshot, absent before the first successful
refresh), the sync store contents, and `self._upcoming_timeline`. -/
structure CoordState where
  data : Option (List CalEvent)
  store : List CalEvent
  upcoming_timeline : Option (List CalEvent)
  deriving DecidableEq, Repr

/-- Modelled from the spec: `DEFAULT_SYNC_EVENT_MIN_TIME` in
const_integration.py is not in src; spec section 4.3 gives the window
default as 15 days back, so the signed offset added to now is -15 days. -/
def default_sync_event_min_time : Int := -15 * day_seconds

/-- Modelled from the spec: `DEFAULT_SYNC_EVENT_MAX_TIME` in
const_integration.py is not in src; spec section 4.3 gives the window
default as 90 days forward. -/
def default_sync_event_max_time : Int := 90 * day_seconds

/-- `MS365CalendarSyncCoordinator.async_get_events`: with no synced data it
raises `HomeAssistantError`; otherwise it fetches remotely when the
requested range lies entirely before the synchronized window start or
entirely after its end, and answers from the cached timeline otherwise.
`remote` models `sync.async_list_events` (sync/sync.py is not in src), the
uncached fetch straight from the API; the returned `CoordState` is the
coordinator state after the call — the body performs no store or data
write. -/
def async_get_events (sync_event_min_time sync_event_max_time : Int)
    (remote : Int → Int → List CalEvent) (st : CoordState)
    (now start_date end_date : Int) :
    Except String (List CalEvent × CoordState × FetchSource) :=
  match st.data with
  | none => .error "Unable to get events: Sync from server has not completed"
  | some data =>
    let sync_start_time := now + sync_event_min_time
    let sync_end_time := now + sync_event_max_time
    if end_date < sync_start_time ∨ start_date > sync_end_time then
      .ok (remote start_date end_date, st, FetchSource.remote)
    else
      .ok (overlapping data start_date end_date, st, FetchSource.cache)

/-- `MS365CalendarSyncCoordinator._async_update_data`: run the sync,
wrapping any failure in `UpdateFailed` carrying the cause; on success read
the timeline back from the store service and publish it as
`_upcoming_timeline`.  `sync_run` models the outcome of `sync.run()` and
`store_timeline` the timeline `store_service.async_get_timeline` returns. -/
def _async_update_data (sync_run : Except String Unit)
    (store_timeline : List CalEvent) (st : CoordState) :
    Except String (List CalEvent × CoordState) :=
  match sync_run with
  | .error err => .error ("Error communicating with API: " ++ err)
  | .ok _ =>
    .ok (store_timeline, { st with upcoming_timeline := some store_timeline })

/-- Modelled from the spec: the refresh step of the homeassistant
`DataUpdateCoordinator` base class (not part of this repository) stores the
timeline returned by `_async_update_data` in `data` on success, and on
`UpdateFailed` retains the previous `data` (stale-but-available) rather
than clearing it. -/
def async_refresh (sync_run : Except String Unit)
    (store_timeline : List CalEvent) (st : CoordState) : CoordState :=
  match _async_update_data sync_run store_timeline st with
  | .error _ => st
  | .ok (tl, st1) => { st1 with data := some tl }

/-- Abstract syntax of the compiled regular expressions the exclusion
patterns are built from (the subset of Python `re` syntax the integration's
configured patterns use). -/
inductive Regex where
  | emptyset
  | eps
  | lit (c : Char)
  | anyChar
  | seq (r1 r2 : Regex)
  | alt (r1 r2 : Regex)
  | star (r : Regex)
  deriving DecidableEq, Repr

/-- Does the regex accept the empty string. -/
def Regex.nullable : Regex → Bool
  | .emptyset => false
  | .eps => true
  | .lit _ => false
  | .anyChar => false
  | .seq r1 r2 => r1.nullable && r2.nullable
  | .alt r1 r2 => r1.nullable || r2.nullable
  | .star _ => true

/-- Smart sequence constructor (keeps derivatives small). -/
def Regex.mkSeq : Regex → Regex → Regex
  | .emptyset, _ => .emptyset
  | _, .emptyset => .emptyset
  | .eps, r => r
  | r, .eps => r
  | r1, r2 => .seq r1 r2

/-- Smart alternative constructor (keeps derivatives small). -/
def Regex.mkAlt : Regex → Regex → Regex
  | .emptyset, r => r
  | r, .emptyset => r
  | r1, r2 => .alt r1 r2

/-- Brzozowski derivative of a regex by one character. -/
def Regex.deriv : Regex → Char → Regex
  | .emptyset, _ => .emptyset
  | .eps, _ => .emptyset
  | .lit c, a => if a = c then .eps else .emptyset
  | .anyChar, _ => .eps
  | .seq r1 r2, a =>
    if r1.nullable then Regex.mkAlt (Regex.mkSeq (r1.deriv a) r2) (r2.deriv a)
    else Regex.mkSeq (r1.deriv a) r2
  | .alt r1 r2, a => Regex.mkAlt (r1.deriv a) (r2.deriv a)
  | .star r, a => Regex.mkSeq (r.deriv a) (.star r)

/-- Full-match of a regex against a character list, by derivatives. -/
def Regex.matchesFrom (r : Regex) (cs : List Char) : Bool :=
  (cs.foldl Regex.deriv r).nullable

/-- Python `re.search(pattern, subject)`: unanchored — the pattern matches
some substring of the subject, i.e. `.* pattern .*` full-matches it; not a
full-match of the pattern itself. -/
def re_search (r : Regex) (s : String) : Bool :=
  Regex.matchesFrom (Regex.seq (Regex.star Regex.anyChar)
    (Regex.seq r (Regex.star Regex.anyChar))) s.data

/-- Regex matching one plain string literally, character by character. -/
def Regex.ofLits (s : String) : Regex :=
  s.data.foldr (fun c r => Regex.seq (Regex.lit c) r) Regex.eps

/-- The include flag loop of `_filter_events`: `include` starts True and the
inner loop over the configured patterns clears it on any `re.search` hit. -/
def event_included (exclude : List Regex) (event : CalEvent) : Bool :=
  exclude.foldl (fun inc ex => if re_search ex event.subject then false else inc)
    true

/-- `MS365CalendarEntity._filter_events`: with no events or no configured
exclusion patterns return the event list unchanged; otherwise keep, in
order, exactly the events whose include flag survived the pattern loop. -/
def _filter_events (exclude : List Regex) (events : List CalEvent) :
    List CalEvent :=
  if events.isEmpty || exclude.isEmpty then events
  else events.filter (event_included exclude)

/-- Start of the local day containing UTC instant `t`, expressed back in
UTC (`dt_util.as_utc(dt_util.start_of_local_day(...))`), for a local
timezone at fixed offset `tz_offset` seconds east of UTC. -/
def start_of_local_day (tz_offset t : Int) : Int :=
  t - (t + tz_offset) % day_seconds

/-- The normalized `start_sort` attribute `_sort_events` sets on each event
before sorting. -/
def start_sort (tz_offset : Int) (event : CalEvent) : Int :=
  if event.is_all_day then start_of_local_day tz_offset event.start
  else event.start

/-- `MS365CalendarEntity._sort_events`: ascending (stable) sort of the
events by their `start_sort` key. -/
def _sort_events (tz_offset : Int) (events : List CalEvent) : List CalEvent :=
  events.mergeSort
    (fun a b => decide (start_sort tz_offset a ≤ start_sort tz_offset b))

/-- `MS365CalendarEntity._create_calendar_event_entities`: convert each
event, appending successes to `event_list`; a `HomeAssistantError` raised by
the conversion is caught, logged, and the event skipped.  `to_entity`
abstracts `_create_calendar_event_entity`, whose body builds the
homeassistant `CalendarEvent` via external helpers (`get_hass_date`,
`clean_html`, the location display name) that can raise. -/
def _create_calendar_event_entities (to_entity : CalEvent → Except String HAEvent)
    (results : List CalEvent) : List HAEvent :=
  results.foldl (fun event_list vevent =>
    match to_entity vevent with
    | .ok ev => event_list ++ [ev]
    | .error _ => event_list) []

/-- Entity-side state read and written by `_get_current_event`:
`self._event`, `self._offset_reached` and `self._error`. -/
structure EntityState where
  _event : Option HAEvent
  _offset_reached : Bool
  _error : Bool
  deriving DecidableEq, Repr

/-- `MS365CalendarEntity._get_current_event`.  When the coordinator resolves
no current event the function logs and returns with no instance attribute
assigned.  Otherwise it converts the event; on success it deep-copies it,
strips the offset marker from the summary, computes `_offset_reached` and
publishes the event.  On a `HomeAssistantError` from the conversion the
handler only sets `self._error`, leaving the Python local `event`
unassigned, so the unconditional `event = deepcopy(event)` that follows
raises `UnboundLocalError`: the call does not complete normally, modelled
as `.error` carrying the message and the instance state at the raise.
`extract_offset` and `offset_reached` abstract the homeassistant helpers
`extract_offset` (with `DEFAULT_OFFSET` applied) and `is_offset_reached`. -/
def _get_current_event (to_entity : CalEvent → Except String HAEvent)
    (extract_offset : String → String × Int)
    (offset_reached : Int → Int → Bool)
    (vevent : Option CalEvent) (st : EntityState) :
    Except (String × EntityState) EntityState :=
  match vevent with
  | none => .ok st
  | some ve =>
    match to_entity ve with
    | .error _ =>
      .error
        ("UnboundLocalError: local variable event referenced before assignment",
          { st with _error := true })
    | .ok ev0 =>
      let p := extract_offset ev0.summary
      let event : HAEvent := { ev0 with summary := p.1 }
      .ok
        { _event := some event,
          _offset_reached := offset_reached event.start p.2,
          _error := false }

/-- Spec section 8 example: an event started an hour ago, ending in an
hour. -/
def spec_example_started : CalEvent := ⟨"s1", "standup", 496400, 503600, false⟩

/-- Spec section 8 example: an event starting in an hour. -/
def spec_example_not_started : CalEvent := ⟨"s2", "review", 503600, 507200, false⟩

/-- Spec section 8 example: an all-day event covering today. -/
def spec_example_all_day : CalEvent := ⟨"s3", "offsite", 432000, 518400, true⟩

/-- A non-all-day event starting tomorrow: inside the code's query window
[now, now+24h) at now = 50000, outside today's window [0, 86400). -/
def c3_event : CalEvent := ⟨"e3", "meeting", 100000, 110000, false⟩

/-- A currently-running event used to witness candidate membership. -/
def c3_started : CalEvent := ⟨"w1", "now-running", -10, 10, false⟩

/-- An event only the remote source knows about. -/
def c2_remote_event : CalEvent := ⟨"r1", "remote only", -2000000, -1999000, false⟩

/-- Synced coordinator state with an empty timeline. -/
def c2_state : CoordState := ⟨some [], [], some []⟩

/-- A cached event inside the synchronized window. -/
def c2_cached_event : CalEvent := ⟨"c1", "cached", 100, 200, false⟩

/-- Synced coordinator state holding `c2_cached_event`. -/
def c2w_state : CoordState := ⟨some [c2_cached_event], [], some [c2_cached_event]⟩

/-- Compiled form of the exclusion pattern `Private.*`. -/
def exclude_private : Regex :=
  Regex.seq (Regex.ofLits "Private") (Regex.star Regex.anyChar)

def event_private_lunch : CalEvent := ⟨"p1", "Private Lunch", 0, 3600, false⟩

def event_lunch : CalEvent := ⟨"p2", "Lunch", 0, 3600, false⟩

def c8_good1 : CalEvent := ⟨"g1", "breakfast", 0, 100, false⟩

def c8_bad : CalEvent := ⟨"b1", "bad", 100, 200, false⟩

def c8_good2 : CalEvent := ⟨"g2", "dinner", 200, 300, false⟩

/-- Demonstration converter: fails exactly on the malformed event. -/
def demo_convert (v : CalEvent) : Except String HAEvent :=
  if v.subject = "bad" then .error "malformed event"
  else .ok ⟨v.subject, v.start, v.«end», v.object_id⟩

def demo_h1 : HAEvent := ⟨"breakfast", 0, 100, "g1"⟩

def demo_h2 : HAEvent := ⟨"dinner", 200, 300, "g2"⟩

theorem firstSome_none (o : Option CalEvent) : firstSome o none = o := by
  cases o <;> rfl

theorem pick_current_eq (s a n : Option CalEvent) :
    pick_current s a n = firstSome s (firstSome a n) := by
  cases s <;> cases a <;> rfl

theorem current_event_scan_eq (now : Int) (l : List CalEvent) :
    ∀ s a n : Option CalEvent,
    current_event_scan now l s a n =
      (firstSome s (l.find? (started_bucket now)),
       firstSome a (l.find? (all_day_bucket now)),
       firstSome n (l.find? (code_not_started now))) := by
  induction l with
  | nil =>
    intro s a n
    simp [current_event_scan, List.find?, firstSome_none]
  | cons e rest ih =>
    intro s a n
    by_cases had : e.is_all_day
    · have hsb : started_bucket now e = false := by simp [started_bucket, had]
      have hnb : code_not_started now e = false := by simp [code_not_started, had]
      by_cases hfin : e.«end» ≤ now
      · have hab : all_day_bucket now e = false := by
          simp [all_day_bucket, had]; omega
        have hf : is_finished now e = true := by simp [is_finished, hfin]
        simp [current_event_scan, had, hf, hsb, hab, hnb,
          List.find?_cons_of_neg, ih]
      · have hab : all_day_bucket now e = true := by
          simp [all_day_bucket, had]; omega
        have hf : is_finished now e = false := by simp [is_finished, hfin]
        cases a with
        | none =>
          simp [current_event_scan, had, hf, hsb, hnb, hab,
            List.find?_cons_of_neg, List.find?_cons_of_pos, ih, firstSome]
        | some x =>
          simp [current_event_scan, had, hf, hsb, hnb, hab,
            List.find?_cons_of_neg, List.find?_cons_of_pos, ih, firstSome]
    · have hadf : e.is_all_day = false := by simpa using had
      by_cases hst : e.start ≤ now
      · by_cases hfin : e.«end» ≤ now
        · have hsb : started_bucket now e = false := by
            simp [started_bucket, hadf]; omega
          have hab : all_day_bucket now e = false := by
            simp [all_day_bucket, hadf]
          have hnb : code_not_started now e = false := by
            simp [code_not_started, hadf]; omega
          have hs : is_started now e = true := by simp [is_started, hst]
          have hf : is_finished now e = true := by simp [is_finished, hfin]
          simp [current_event_scan, hadf, hs, hf, hsb, hab, hnb,
            List.find?_cons_of_neg, ih]
        · have hsb : started_bucket now e = true := by
            simp [started_bucket, hadf]; omega
          have hab : all_day_bucket now e = false := by
            simp [all_day_bucket, hadf]
          have hnb : code_not_started now e = false := by
            simp [code_not_started, hadf]; omega
          have hs : is_started now e = true := by simp [is_started, hst]
          have hf : is_finished now e = false := by simp [is_finished, hfin]
          cases s with
          | none =>
            simp [current_event_scan, hadf, hs, hf, hsb, hab, hnb,
              List.find?_cons_of_neg, List.find?_cons_of_pos, ih, firstSome]
          | some x =>
            simp [current_event_scan, hadf, hs, hf, hsb, hab, hnb,
              List.find?_cons_of_neg, List.find?_cons_of_pos, ih, firstSome]
      · have hs : is_started now e = false := by simp [is_started, hst]
        have hsb : started_bucket now e = false := by
          simp [started_bucket, hadf]; omega
        have hab : all_day_bucket now e = false := by
          simp [all_day_bucket, hadf]
        by_cases hfin : e.«end» ≤ now
        · have hnb : code_not_started now e = false := by
            simp [code_not_started, hadf]; omega
          have hf : is_finished now e = true := by simp [is_finished, hfin]
          simp [current_event_scan, hadf, hs, hf, hsb, hab, hnb,
            List.find?_cons_of_neg, ih]
        · have hnb : code_not_started now e = true := by
            simp [code_not_started, hadf]; omega
          have hf : is_finished now e = false := by simp [is_finished, hfin]
          cases n with
          | none =>
            simp [current_event_scan, hadf, hs, hf, hsb, hab, hnb,
              List.find?_cons_of_neg, List.find?_cons_of_pos, ih, firstSome]
          | some x =>
            simp [current_event_scan, hadf, hs, hf, hsb, hab, hnb,
              List.find?_cons_of_neg, List.find?_cons_of_pos, ih, firstSome]

theorem find?_congr_on (p q : CalEvent → Bool) (l : List CalEvent)
    (h : ∀ x ∈ l, p x = q x) : l.find? p = l.find? q := by
  induction l with
  | nil => rfl
  | cons e rest ih =>
    have he := h e (by simp)
    by_cases hp : p e = true
    · rw [List.find?_cons_of_pos _ hp, List.find?_cons_of_pos _ (he ▸ hp)]
    · rw [List.find?_cons_of_neg _ hp, List.find?_cons_of_neg _ (he ▸ hp)]
      exact ih (fun x hx => h x (by simp [hx]))

theorem get_current_event_as_find (tl : List CalEvent) (now : Int) :
    get_current_event (some tl) now =
      firstSome ((overlapping tl now (now + day_seconds)).find? (started_bucket now))
        (firstSome ((overlapping tl now (now + day_seconds)).find? (all_day_bucket now))
          ((overlapping tl now (now + day_seconds)).find? (code_not_started now))) := by
  show get_current_event_from now (overlapping tl now (now + day_seconds)) = _
  rw [get_current_event_from, current_event_scan_eq]
  exact pick_current_eq _ _ _

/-- C1: on a synced timeline, `get_current_event` classifies each candidate
into at most one bucket — started (start ≤ now < end, not all-day),
all-day-unfinished (all-day, now < end), not-started (now < start, not
all-day) — keeps the first event of each bucket in iteration order, and
returns the started one, else the all-day-unfinished one, else the
not-started one, else no event. -/
theorem get_current_event_bucket_selection (tl : List CalEvent) (now : Int)
    (hinv : ∀ e ∈ tl, e.start ≤ e.«end») :
    get_current_event (some tl) now =
      firstSome ((overlapping tl now (now + day_seconds)).find? (started_bucket now))
        (firstSome ((overlapping tl now (now + day_seconds)).find? (all_day_bucket now))
          ((overlapping tl now (now + day_seconds)).find? (not_started_bucket now))) := by
  rw [get_current_event_as_find]
  have hcong : (overlapping tl now (now + day_seconds)).find? (code_not_started now)
      = (overlapping tl now (now + day_seconds)).find? (not_started_bucket now) := by
    apply find?_congr_on
    intro x hx
    have hx2 : x ∈ tl := (List.mem_filter.mp hx).1
    have hse := hinv x hx2
    by_cases hall : x.is_all_day
    · simp [code_not_started, not_started_bucket, hall]
    · simp [code_not_started, not_started_bucket, hall]
      omega
  rw [hcong]

theorem get_current_event_bucket_selection_witness :
    (∀ e ∈ [spec_example_not_started, spec_example_started, spec_example_all_day],
      e.start ≤ e.«end») ∧
    get_current_event
        (some [spec_example_not_started, spec_example_started, spec_example_all_day])
        500000 = some spec_example_started := by
  refine ⟨by decide, ?_⟩
  rw [get_current_event_bucket_selection
    [spec_example_not_started, spec_example_started, spec_example_all_day]
    500000 (by decide)]
  decide

/-- C3 counterexample: at now = 50000 (today's window being [0, 86400)),
`get_current_event` returns an event that does not overlap
[today_start_instant, today_start_instant + 24h) at all — the code's query
window starts at the current instant, not at the start of the day. -/
theorem get_current_event_outside_today_window :
    get_current_event (some [c3_event]) 50000 = some c3_event ∧
    c3_event ∉ overlapping [c3_event] (today_start_instant 50000)
      (today_start_instant 50000 + day_seconds) := by
  decide

/-- C3 amended: `get_current_event` draws its candidates from exactly the
events overlapping the half-open 24-hour interval starting at the current
instant, [now, now + 24h); in particular any event it returns overlaps that
interval. -/
theorem get_current_event_now_window (tl : List CalEvent) (now : Int) :
    get_current_event (some tl) now =
      get_current_event_from now (overlapping tl now (now + day_seconds)) ∧
    ∀ e, get_current_event (some tl) now = some e →
      e ∈ overlapping tl now (now + day_seconds) := by
  refine ⟨rfl, ?_⟩
  intro e he
  rw [get_current_event_as_find] at he
  rcases hf1 : (overlapping tl now (now + day_seconds)).find? (started_bucket now)
    with _ | x
  · rw [hf1] at he
    rcases hf2 : (overlapping tl now (now + day_seconds)).find? (all_day_bucket now)
      with _ | y
    · rw [hf2] at he
      simp only [firstSome] at he
      exact List.mem_of_find?_eq_some he
    · rw [hf2] at he
      simp only [firstSome] at he
      cases he
      exact List.mem_of_find?_eq_some hf2
  · rw [hf1] at he
    simp only [firstSome] at he
    cases he
    exact List.mem_of_find?_eq_some hf1

theorem get_current_event_now_window_witness :
    c3_started ∈ overlapping [c3_started] 0 (0 + day_seconds) :=
  (get_current_event_now_window [c3_started] 0).2 c3_started (by decide)

/-- C2 counterexample: the range [-2000000, 0) straddles the window start
boundary (its start lies before now + minTime, its end inside the window),
so by the claim it should be answered by exactly one uncached remote fetch;
the code answers it from the cache and never calls the remote source. -/
theorem async_get_events_straddling_range_cached :
    (-2000000 : Int) < 0 + default_sync_event_min_time ∧
    0 + default_sync_event_min_time < 0 ∧
    async_get_events default_sync_event_min_time default_sync_event_max_time
      (fun _ _ => [c2_remote_event]) c2_state 0 (-2000000) 0 =
      .ok ([], c2_state, FetchSource.cache) :=
  ⟨by decide, by decide, rfl⟩

/-- C2 amended: after a successful sync, `async_get_events` bypasses the
cache with exactly one uncached remote fetch when the requested range lies
entirely before the synchronized window start or entirely after its end
(end_date < now + minTime or start_date > now + maxTime), and otherwise —
including ranges straddling a window boundary — answers from the cached
timeline via `overlapping`; in both cases the coordinator state, and with
it the store, is left unchanged, so the remote result is never written back
into the cache. -/
theorem async_get_events_routing (sync_event_min_time sync_event_max_time : Int)
    (remote : Int → Int → List CalEvent) (st : CoordState)
    (data : List CalEvent) (now start_date end_date : Int)
    (hdata : st.data = some data) :
    (end_date < now + sync_event_min_time ∨ start_date > now + sync_event_max_time →
      async_get_events sync_event_min_time sync_event_max_time remote st
        now start_date end_date =
        .ok (remote start_date end_date, st, FetchSource.remote)) ∧
    (¬(end_date < now + sync_event_min_time ∨ start_date > now + sync_event_max_time) →
      async_get_events sync_event_min_time sync_event_max_time remote st
        now start_date end_date =
        .ok (overlapping data start_date end_date, st, FetchSource.cache)) := by
  constructor
  · intro h
    simp [async_get_events, hdata, h]
  · intro h
    simp [async_get_events, hdata, h]

theorem async_get_events_routing_witness :
    async_get_events default_sync_event_min_time default_sync_event_max_time
      (fun _ _ => []) c2w_state 0 100 200 =
      .ok ([c2_cached_event], c2w_state, FetchSource.cache) :=
  ((async_get_events_routing default_sync_event_min_time
      default_sync_event_max_time (fun _ _ => [])
      c2w_state [c2_cached_event] 0 100 200 rfl).2 (by decide)).trans rfl

/-- C4: when `sync.run()` fails, `_async_update_data` raises `UpdateFailed`
carrying the underlying cause, and the refresh cycle leaves the coordinator
state — `data` and `_upcoming_timeline` — exactly as it was, still
queryable; it is never cleared on a failed cycle. -/
theorem update_failed_retains_timeline (err : String)
    (store_timeline : List CalEvent) (st : CoordState) :
    _async_update_data (.error err) store_timeline st =
      .error ("Error communicating with API: " ++ err) ∧
    async_refresh (.error err) store_timeline st = st :=
  ⟨rfl, rfl⟩

/-- C5: a range query issued before any successful sync (no coordinator
data) raises the explicit not-ready `HomeAssistantError` instead of
returning an empty result. -/
theorem async_get_events_before_first_sync
    (sync_event_min_time sync_event_max_time : Int)
    (remote : Int → Int → List CalEvent) (store : List CalEvent)
    (upcoming : Option (List CalEvent)) (now start_date end_date : Int) :
    async_get_events sync_event_min_time sync_event_max_time remote
      ⟨none, store, upcoming⟩ now start_date end_date =
      .error "Unable to get events: Sync from server has not completed" :=
  rfl

theorem event_included_foldl (s : String) (l : List Regex) (b : Bool) :
    l.foldl (fun inc ex => if re_search ex s then false else inc) b =
      (b && !l.any (fun ex => re_search ex s)) := by
  induction l generalizing b with
  | nil => simp
  | cons ex rest ih =>
    simp only [List.foldl_cons, List.any_cons]
    by_cases h : re_search ex s
    · rw [if_pos h, ih]
      simp [h]
    · rw [if_neg h, ih]
      simp [h]

theorem event_included_eq (exclude : List Regex) (e : CalEvent) :
    event_included exclude e =
      !exclude.any (fun ex => re_search ex e.subject) := by
  rw [event_included, event_included_foldl]
  simp

/-- C6: the exclusion filter drops exactly the events whose subject matches
at least one configured pattern under unanchored regex search (patterns
OR'd), retaining the others in order; with pattern `Private.*`, subject
"Private Lunch" is dropped and subject "Lunch" is retained. -/
theorem filter_events_drops_matching_subjects (exclude : List Regex)
    (events : List CalEvent) :
    _filter_events exclude events =
      events.filter (fun e => !exclude.any (fun ex => re_search ex e.subject)) ∧
    _filter_events [exclude_private] [event_private_lunch, event_lunch] =
      [event_lunch] := by
  constructor
  · rw [_filter_events]
    by_cases h1 : events.isEmpty
    · rw [List.isEmpty_iff.mp h1]
      simp
    · by_cases h2 : exclude.isEmpty
      · rw [List.isEmpty_iff.mp h2]
        simp [h1]
      · simp only [h1, h2, Bool.or_self, if_neg, Bool.false_eq_true,
          not_false_eq_true]
        exact List.filter_congr (fun e _ => event_included_eq exclude e)
  · decide

/-- C7: the sort stage returns a permutation of its input ordered ascending
by the normalized key: the event's start, except that an all-day event's
key is the start of the local day of its start converted to UTC, so an
all-day event sorts as if it began at local midnight. -/
theorem sort_events_normalized_key (tz_offset : Int) (events : List CalEvent) :
    (_sort_events tz_offset events).Perm events ∧
    (_sort_events tz_offset events).Pairwise
      (fun a b => start_sort tz_offset a ≤ start_sort tz_offset b) ∧
    ∀ e, start_sort tz_offset e =
      if e.is_all_day then start_of_local_day tz_offset e.start
      else e.start := by
  refine ⟨List.mergeSort_perm _ _, ?_, fun e => rfl⟩
  have h := @List.sorted_mergeSort CalEvent
    (fun a b => decide (start_sort tz_offset a ≤ start_sort tz_offset b))
    (by
      intro a b c hab hbc
      simp only [decide_eq_true_eq] at hab hbc ⊢
      omega)
    (by
      intro a b
      simp only [Bool.or_eq_true, decide_eq_true_eq]
      omega)
    events
  exact h.imp (by
    intro a b hab
    simpa using hab)

theorem create_entities_foldl (to_entity : CalEvent → Except String HAEvent)
    (results : List CalEvent) (acc : List HAEvent) :
    results.foldl (fun event_list vevent =>
      match to_entity vevent with
      | .ok ev => event_list ++ [ev]
      | .error _ => event_list) acc =
      acc ++ results.filterMap (fun v => (to_entity v).toOption) := by
  induction results generalizing acc with
  | nil => simp
  | cons v rest ih =>
    cases hv : to_entity v with
    | ok ev =>
      simp [List.foldl_cons, hv, ih, Except.toOption, List.filterMap_cons]
    | error e =>
      simp [List.foldl_cons, hv, ih, Except.toOption, List.filterMap_cons]

/-- C8: entity construction returns, in order, exactly the successful
conversions — each event that converts successfully appears, each per-event
failure is skipped — so one malformed event in the middle of a batch never
aborts the rest. -/
theorem create_entities_skips_failures (to_entity : CalEvent → Except String HAEvent)
    (results : List CalEvent) :
    _create_calendar_event_entities to_entity results =
      results.filterMap (fun v => (to_entity v).toOption) ∧
    _create_calendar_event_entities demo_convert [c8_good1, c8_bad, c8_good2] =
      [demo_h1, demo_h2] := by
  constructor
  · rw [_create_calendar_event_entities, create_entities_foldl]
    rfl
  · decide

/-- C9: whenever the coordinator resolves no current event,
`_get_current_event` returns early with the entity state untouched —
neither `self._event` nor `self._offset_reached` is assigned, so the
previously published current event remains exposed. -/
theorem get_current_event_none_preserves_state
    (to_entity : CalEvent → Except String HAEvent)
    (extract_offset : String → String × Int)
    (offset_reached : Int → Int → Bool)
    (data : Option (List CalEvent)) (now : Int) (st : EntityState)
    (h : get_current_event data now = none) :
    _get_current_event to_entity extract_offset offset_reached
      (get_current_event data now) st = .ok st := by
  rw [h]
  rfl

theorem get_current_event_none_preserves_state_witness :
    _get_current_event (fun _ => .error "x") (fun s => (s, 0))
      (fun _ _ => false) (get_current_event none 0)
      ⟨some demo_h1, true, false⟩ = .ok ⟨some demo_h1, true, false⟩ :=
  get_current_event_none_preserves_state (fun _ => .error "x") (fun s => (s, 0))
    (fun _ _ => false) none 0 ⟨some demo_h1, true, false⟩ rfl

/-- C10: when the resolved current event fails to convert with
`HomeAssistantError`, the handler leaves the local `event` unassigned and
the following `deepcopy(event)` raises an unbound-local error, so
`_get_current_event` does not complete normally; only `_error` has been
mutated by the handler and `self._event` is left unchanged. -/
theorem conversion_error_unbound_local
    (to_entity : CalEvent → Except String HAEvent)
    (extract_offset : String → String × Int)
    (offset_reached : Int → Int → Bool)
    (ve : CalEvent) (st : EntityState) (msg : String)
    (h : to_entity ve = .error msg) :
    _get_current_event to_entity extract_offset offset_reached (some ve) st =
      .error
        ("UnboundLocalError: local variable event referenced before assignment",
          { st with _error := true }) ∧
    ({ st with _error := true } : EntityState)._event = st._event := by
  refine ⟨?_, rfl⟩
  simp [_get_current_event, h]

theorem conversion_error_unbound_local_witness :
    _get_current_event (fun _ => .error "malformed location")
      (fun s => (s, 0)) (fun _ _ => false) (some c8_bad)
      ⟨some demo_h1, false, false⟩ =
      .error
        ("UnboundLocalError: local variable event referenced before assignment",
          ⟨some demo_h1, false, true⟩) ∧
    (⟨some demo_h1, false, true⟩ : EntityState)._event =
      (⟨some demo_h1, false, false⟩ : EntityState)._event :=
  conversion_error_unbound_local (fun _ => .error "malformed location")
    (fun s => (s, 0)) (fun _ _ => false) c8_bad ⟨some demo_h1, false, false⟩
    "malformed location" rfl

end MS365
